import Mathlib

/-!
Data_Generater / AutoTestlib : `Args` and `Process`

A shallow embedding of `src/AutoTestlib/src/Process.cpp`.

* A C++ `std::string` is a `List Char`; `std::vector<string>` is a list of those.
* `Args::parse` is a left fold of its loop body (`parseStep`) over the command line,
  followed by the flush of the last argument.
* `Process` is a record of the member variables that the modelled methods read
  or write. Every result the operating system hands back (`fork`, `pipe`,
  `kill`, `waitpid`, `read`, `write`) is an explicit argument of the method that asks for it,
  and every system call a method issues is reported in a trace.
-/

namespace process

/-! ## Args -/

/-- The character written `'\\'` in the source. -/
def BACKSLASH : Char := Char.ofNat 92

/-- The single quote character. -/
def SQUOTE : Char := Char.ofNat 39

/-- The double quote character. -/
def DQUOTE : Char := Char.ofNat 34

/-- The predicate `std::isspace` in the default "C" locale: space, `\t`, `\n`, `\v`, `\f`, `\r`. -/
def isspace (c : Char) : Bool :=
  c.toNat == 32 || (9 ≤ c.toNat && c.toNat ≤ 13)

/-- The local `enum State{ NORMAL,IN_QUOTE,IN_DQUOTE }` of `Args::parse`. -/
inductive State where
  | NORMAL
  | IN_QUOTE
  | IN_DQUOTE
  deriving DecidableEq, Repr

/-- The local variables of `Args::parse` together with the member `_args`. -/
structure ParseState where
  state : State
  current_arg : List Char
  escaped : Bool
  args : List (List Char)
  deriving DecidableEq, Repr

/-- The values of the locals before the loop of `Args::parse` (after `_args.clear()`). -/
def ParseState.init : ParseState :=
  { state := State.NORMAL, current_arg := [], escaped := false, args := [] }

/-- One iteration of the loop `for(char c:command_line)` of `Args::parse`. -/
def parseStep (s : ParseState) (c : Char) : ParseState :=
  if s.escaped then
    { s with current_arg := s.current_arg ++ [BACKSLASH, c], escaped := false }
  else
    match s.state with
    | State.NORMAL =>
      if c = BACKSLASH then
        { s with escaped := true }
      else if c = SQUOTE then
        { s with current_arg := s.current_arg ++ [c], state := State.IN_QUOTE }
      else if c = DQUOTE then
        { s with current_arg := s.current_arg ++ [c], state := State.IN_DQUOTE }
      else if isspace c then
        if s.current_arg ≠ [] then
          { s with args := s.args ++ [s.current_arg], current_arg := [] }
        else s
      else
        { s with current_arg := s.current_arg ++ [c] }
    | State.IN_QUOTE =>
      if c = BACKSLASH then
        { s with escaped := true }
      else
        if c = SQUOTE ∧ s.escaped = false then
          { s with current_arg := s.current_arg ++ [c], state := State.NORMAL }
        else
          { s with current_arg := s.current_arg ++ [c] }
    | State.IN_DQUOTE =>
      if c = BACKSLASH then
        { s with escaped := true }
      else
        if c = DQUOTE ∧ s.escaped = false then
          { s with current_arg := s.current_arg ++ [c], state := State.NORMAL }
        else
          { s with current_arg := s.current_arg ++ [c] }

/-- The loop of `Args::parse` run over a piece of input from a given state. -/
def parseLoop (s : ParseState) (input : List Char) : ParseState :=
  input.foldl parseStep s

/-- The code after the loop of `Args::parse`: the last argument is pushed when not empty. -/
def parseFinish (s : ParseState) : List (List Char) :=
  if s.current_arg ≠ [] then s.args ++ [s.current_arg] else s.args

/-- The class `Args`: the token vector `_args` (the pointer view `_c_args` is
regenerated from it by `prepare_c_args` and carries no further information). -/
structure Args where
  args : List (List Char)
  deriving DecidableEq, Repr

/-- The method `Args::parse`: the old tokens are dropped and replaced by the tokens of `command_line`. -/
def Args.parse (_self : Args) (command_line : List Char) : Args :=
  { args := parseFinish (parseLoop ParseState.init command_line) }

/-- The constructor `Args::Args(const string &command)`. -/
def Args.ofCommand (command : List Char) : Args :=
  Args.parse { args := [] } command

/-- The method `Args::get_args`. -/
def Args.get_args (self : Args) : List (List Char) :=
  self.args

/-- The method `Args::get_program_name`: token 0, or the empty string. -/
def Args.get_program_name (self : Args) : List Char :=
  match self.args with
  | [] => []
  | a :: _ => a

/-- The command line rebuilt from tokens: the tokens separated by single spaces. -/
def joinArgs (tokens : List (List Char)) : List Char :=
  List.intercalate [' '] tokens

/-! ## Operating-system constants and wait-status macros -/

/-- Signal numbers of `<signal.h>` on Linux. -/
def SIGHUP : Int := 1

/-- Interrupt from the keyboard. -/
def SIGINT : Int := 2

/-- Abort signal. -/
def SIGABRT : Int := 6

/-- Floating-point exception. -/
def SIGFPE : Int := 8

/-- Kill signal. -/
def SIGKILL : Int := 9

/-- Invalid memory reference. -/
def SIGSEGV : Int := 11

/-- Broken pipe. -/
def SIGPIPE : Int := 13

/-- Termination signal. -/
def SIGTERM : Int := 15

/-- The `errno` value "operation not permitted". -/
def EPERM : Int := 1

/-- The `errno` value "no such process". -/
def ESRCH : Int := 3

/-- The conversion `(signed char) x` of an `int`. -/
def toSignedChar (x : Int) : Int :=
  if x % 256 ≥ 128 then x % 256 - 256 else x % 256

/-- The macro `WTERMSIG(status)`, which is `status & 0x7f`. -/
def WTERMSIG (status : Int) : Int :=
  status % 128

/-- The macro `WEXITSTATUS(status)`, which is `(status & 0xff00) >> 8`. -/
def WEXITSTATUS (status : Int) : Int :=
  (status / 256) % 256

/-- The macro `WIFEXITED(status)`, which is `WTERMSIG(status) == 0`. -/
def WIFEXITED (status : Int) : Bool :=
  WTERMSIG status == 0

/-- The macro `WIFSIGNALED(status)`, which is `((signed char) ((status & 0x7f) + 1) >> 1) > 0`. -/
def WIFSIGNALED (status : Int) : Bool :=
  decide (toSignedChar (status % 128 + 1) / 2 > 0)

/-- The C++ operator `||` on two `int` operands, with its `bool` result read back as an `int`
(as happens to a `case` label). -/
def logicalOr (a b : Int) : Int :=
  if a ≠ 0 ∨ b ≠ 0 then 1 else 0

/-! ## Process -/

/-- The `enum Status{ RUNNING,STOP,ERROR,TIMEOUT,MEMOUT,RE }` of `Process.h`. -/
inductive Status where
  | RUNNING
  | STOP
  | ERROR
  | TIMEOUT
  | MEMOUT
  | RE
  deriving DecidableEq, Repr

/-- Modelled from the spec: the enumeration `JudgeCode` of `JudgeSign.h`, which is not among the
sources. The spec lists the verdict codes Waiting, TimeLimitExceeded, MemoryLimitExceeded,
RuntimeError and FloatingPointError; the constructors carry the spelling `Process.cpp` uses. -/
inductive JudgeCode where
  | Waiting
  | TimeLimitEXceeded
  | MemoryLimitExceeded
  | RuntimeError
  | FloatingPointError
  deriving DecidableEq, Repr

/-- A pipe member (`_stdin`, `_stdout`, `_stderr`) as `Process.cpp` uses it: two descriptors,
index 0 the read end and index 1 the write end, where `-1` stands for a closed end. -/
structure Pipe where
  fd0 : Int
  fd1 : Int
  deriving DecidableEq, Repr

/-- The subscript `pipe[flag]` with a `bool` index. -/
def Pipe.get (p : Pipe) (flag : Bool) : Int :=
  if flag then p.fd1 else p.fd0

/-- The assignment `pipe[flag]=v` with a `bool` index. -/
def Pipe.set (p : Pipe) (flag : Bool) (v : Int) : Pipe :=
  if flag then { p with fd1 := v } else { p with fd0 := v }

/-- The system calls the modelled methods issue, with their arguments. -/
inductive SysCall where
  | pipe
  | fork
  | kill (pid : Int) (signal : Int)
  | waitpid (pid : Int)
  | close (fd : Int)
  | setenv (name : List Char) (value : List Char)
  | setrlimit_AS (rlim_cur : Nat) (rlim_max : Nat)
  | dup2 (oldfd : Int) (newfd : Int)
  | execvp (path : List Char) (args : List (List Char))
  | exit_failure
  | write (fd : Int) (data : List Char)
  | read (fd : Int)
  | start_blocked (fd : Int)
  | close_blocked (fd : Int)
  deriving DecidableEq, Repr

/-- The member variables of `class Process` that the modelled methods use. -/
structure Process where
  _args : Args
  _status : Status
  _stdin : Pipe
  _stdout : Pipe
  _stderr : Pipe
  _pid : Int
  _path : List Char
  name : List Char
  _env_vars : List (List Char × List Char)
  _memsize : Int
  _empty : Bool
  _exit_code : Int
  deriving DecidableEq, Repr

/-- How a method call ends: it returns a value, it throws `std::runtime_error` with a message,
or (in the forked child only) control never comes back because of `execvp` or `exit`. -/
inductive Flow (α : Type) where
  | returned (value : α)
  | thrown (what : List Char)
  | noreturn
  deriving DecidableEq, Repr

/-- The result of running a method: the object afterwards, how the call ended, and the system
calls issued, in order. -/
structure Outcome (α : Type) where
  self : Process
  flow : Flow α
  calls : List SysCall

/-- The default constructor `Process::Process()` with the in-class initialisers of `Process.h`;
the initial descriptors of the three pipes come from the absent `Pipe.h` and are arguments. -/
def Process.new (stdin0 stdout0 stderr0 : Pipe) : Process :=
  { _args := { args := [] }, _status := Status.STOP,
    _stdin := stdin0, _stdout := stdout0, _stderr := stderr0,
    _pid := -1, _path := [], name := "Process".toList, _env_vars := [],
    _memsize := 0, _empty := true, _exit_code := -1 }

/-- One `if(pipe[i]!=-1){ ::close(pipe[i]); pipe[i]=-1; }` block of `close_pipe`. -/
def closeEnd (p : Pipe) (i : Bool) : Pipe × List SysCall :=
  if p.get i ≠ -1 then (p.set i (-1), [SysCall.close (p.get i)]) else (p, [])

/-- The method `Process::close_pipe(bool flag)`. -/
def Process.close_pipe (p : Process) (flag : Bool) : Outcome Unit :=
  let a := closeEnd p._stdin flag
  let b := closeEnd p._stdout (!flag)
  let c := closeEnd p._stderr (!flag)
  { self := { p with _stdin := a.1, _stdout := b.1, _stderr := c.1 },
    flow := Flow.returned (),
    calls := a.2 ++ b.2 ++ c.2 }

/-- The method `Process::close()`: `close_pipe(1)` then `close_pipe(0)`. -/
def Process.close (p : Process) : Outcome Unit :=
  let a := p.close_pipe true
  let b := a.self.close_pipe false
  { self := b.self, flow := Flow.returned (), calls := a.calls ++ b.calls }

/-- The method `Process::wait()`; `status` is the word `waitpid` stored. -/
def Process.wait (p : Process) (status : Int) : Outcome JudgeCode :=
  let calls := [SysCall.waitpid p._pid]
  let p1 := { p with _exit_code := status, _pid := -1 }
  if p1._status = Status.TIMEOUT then
    { self := p1, flow := Flow.returned JudgeCode.TimeLimitEXceeded, calls := calls }
  else if WIFEXITED status then
    let temp := WEXITSTATUS status
    if temp = 0 then
      { self := { p1 with _status := Status.STOP }, flow := Flow.returned JudgeCode.Waiting,
        calls := calls }
    else
      { self := { p1 with _status := Status.ERROR }, flow := Flow.returned JudgeCode.Waiting,
        calls := calls }
  else if WIFSIGNALED status then
    let signal := WTERMSIG status
    let p2 := { p1 with _status := Status.RE }
    if signal = SIGSEGV then
      { self := p2, flow := Flow.returned JudgeCode.RuntimeError, calls := calls }
    else if signal = logicalOr SIGABRT SIGKILL then
      { self := p2, flow := Flow.returned JudgeCode.MemoryLimitExceeded, calls := calls }
    else if signal = SIGFPE then
      { self := p2, flow := Flow.returned JudgeCode.FloatingPointError, calls := calls }
    else
      { self := p2, flow := Flow.returned JudgeCode.RuntimeError, calls := calls }
  else
    { self := { p1 with _status := Status.RE }, flow := Flow.returned JudgeCode.RuntimeError,
      calls := calls }

/-- The method `Process::kill(int signal)`; `result` is what `::kill` returns if it is called,
`status` the word `waitpid` stores if `wait()` is reached. -/
def Process.kill (p : Process) (signal : Int) (result : Int) (status : Int) : Outcome Bool :=
  if p._pid ≤ 0 then
    { self := p, flow := Flow.returned false, calls := [] }
  else
    if result = 0 then
      if signal = SIGKILL ∨ signal = SIGTERM then
        let w := p.wait status
        let c := w.self.close
        { self := { c.self with _status := Status.STOP }, flow := Flow.returned true,
          calls := [SysCall.kill p._pid signal] ++ w.calls ++ c.calls }
      else
        { self := p, flow := Flow.returned true, calls := [SysCall.kill p._pid signal] }
    else
      { self := p, flow := Flow.returned false, calls := [SysCall.kill p._pid signal] }

/-- The method `Process::is_running()`; `result` and `errno` are what `::kill(_pid,0)` returns
and leaves in `errno` if it is called. -/
def Process.is_running (p : Process) (result : Int) (errno : Int) : Outcome Bool :=
  if p._pid ≤ 0 then
    { self := { p with _status := Status.STOP }, flow := Flow.returned false, calls := [] }
  else
    let calls := [SysCall.kill p._pid 0]
    if result = 0 then
      { self := { p with _status := Status.RUNNING }, flow := Flow.returned true, calls := calls }
    else if errno = ESRCH then
      { self := { p with _pid := -1, _status := Status.STOP }, flow := Flow.returned false,
        calls := calls }
    else if errno = EPERM then
      { self := { p with _status := Status.RUNNING }, flow := Flow.returned true, calls := calls }
    else
      { self := { p with _status := Status.ERROR }, flow := Flow.returned false, calls := calls }

/-- The callback that `Process::set_timeout` hands to the timer:
`if(is_running()){ kill(SIGKILL); _status=TIMEOUT; }`. The arguments are the results of the
system calls it may issue: the probe `::kill(_pid,0)`, the `::kill(_pid,SIGKILL)` and `waitpid`. -/
def Process.timeout_callback (p : Process) (probe_result probe_errno kill_result status : Int) :
    Outcome Unit :=
  let r := p.is_running probe_result probe_errno
  if r.flow = Flow.returned true then
    let k := r.self.kill SIGKILL kill_result status
    { self := { k.self with _status := Status.TIMEOUT }, flow := Flow.returned (),
      calls := r.calls ++ k.calls }
  else
    { self := r.self, flow := Flow.returned (), calls := r.calls }

/-- The three calls `pipe(_stdin)`, `pipe(_stdout)`, `pipe(_stderr)` of `init_pipe`, joined by
`||`: a call is made only if the calls before it succeeded. A result is `none` when `pipe`
returns `-1`, and otherwise the two descriptors it stored. -/
def Process.init_pipe (p : Process) (r_stdin r_stdout r_stderr : Option Pipe) : Outcome Unit :=
  let what := p.name ++ ":管道创建错误！".toList
  match r_stdin with
  | none => { self := p, flow := Flow.thrown what, calls := [SysCall.pipe] }
  | some a =>
    let p1 := { p with _stdin := a }
    match r_stdout with
    | none => { self := p1, flow := Flow.thrown what, calls := [SysCall.pipe, SysCall.pipe] }
    | some b =>
      let p2 := { p1 with _stdout := b }
      match r_stderr with
      | none =>
        { self := p2, flow := Flow.thrown what,
          calls := [SysCall.pipe, SysCall.pipe, SysCall.pipe] }
      | some c =>
        { self := { p2 with _stderr := c }, flow := Flow.returned (),
          calls := [SysCall.pipe, SysCall.pipe, SysCall.pipe] }

/-- The value of an `int` expression after wrapping to 32 bits (two's complement). -/
def wrapInt32 (x : Int) : Int :=
  (x + 2147483648) % 4294967296 - 2147483648

/-- The conversion of an `int` to `rlim_t` (unsigned, 64 bits). -/
def toRlim (x : Int) : Nat :=
  (x % 18446744073709551616).toNat

/-- The expression `_memsize*1024*1024`, evaluated in `int` and stored in a `rlim_t`. -/
def rlimitBytes (memsize : Int) : Nat :=
  toRlim (wrapInt32 (wrapInt32 (memsize * 1024) * 1024))

/-- What the operating system answers during `launch`: the return value of `fork`, and, in the
child, the return value of `setrlimit` and whether `execvp` came back (it only does on failure). -/
structure LaunchOS where
  fork_result : Int
  setrlimit_result : Int
  execvp_failed : Bool
  deriving DecidableEq, Repr

/-- The method `Process::launch(const char arg[],char *args[])`. -/
def Process.launch (p : Process) (arg : List Char) (args : List (List Char)) (os : LaunchOS) :
    Outcome Unit :=
  let p1 := { p with _pid := os.fork_result }
  if p1._pid = 0 then
    let envCalls := p1._env_vars.map (fun nv => SysCall.setenv nv.1 nv.2)
    let limitCalls :=
      if p1._memsize ≠ 0 then
        [SysCall.setrlimit_AS (rlimitBytes p1._memsize) (rlimitBytes p1._memsize)]
      else []
    if p1._memsize ≠ 0 ∧ os.setrlimit_result = -1 then
      { self := p1, flow := Flow.noreturn,
        calls := [SysCall.fork] ++ envCalls ++ limitCalls ++ [SysCall.exit_failure] }
    else
      let dupCalls := [SysCall.dup2 p1._stdin.fd0 0, SysCall.dup2 p1._stdout.fd1 1,
        SysCall.dup2 p1._stderr.fd1 2]
      let c := p1.close_pipe true
      { self := c.self, flow := Flow.noreturn,
        calls := [SysCall.fork] ++ envCalls ++ limitCalls ++ dupCalls ++ c.calls
          ++ [SysCall.execvp arg args]
          ++ (if os.execvp_failed then [SysCall.exit_failure] else []) }
  else if p1._pid < 0 then
    { self := { p1 with _status := Status.ERROR },
      flow := Flow.thrown (p1.name ++ ":子程序运行失败！".toList), calls := [SysCall.fork] }
  else
    let c := { p1 with _status := Status.RUNNING }.close_pipe false
    { self := c.self, flow := Flow.returned (), calls := [SysCall.fork] ++ c.calls }

/-- The method `Process::start()`: `init_pipe()` then `launch(_path.c_str(),_args.data())`; an
exception of `init_pipe` leaves `start` before `launch` is reached. -/
def Process.start (p : Process) (r_stdin r_stdout r_stderr : Option Pipe) (os : LaunchOS) :
    Outcome Unit :=
  let i := p.init_pipe r_stdin r_stdout r_stderr
  match i.flow with
  | Flow.returned _ =>
    let l := i.self.launch i.self._path i.self._args.args os
    { self := l.self, flow := l.flow, calls := i.calls ++ l.calls }
  | Flow.thrown what => { self := i.self, flow := Flow.thrown what, calls := i.calls }
  | Flow.noreturn => { self := i.self, flow := Flow.noreturn, calls := i.calls }

/-! ## Process : input and output -/

/-- The character `'\0'`. -/
def NUL : Char := Char.ofNat 0

/-- Modelled from the spec: the stream selector `TypeOut` of the absent headers; the spec calls
it the selector of "stdout or stderr", and `Process.cpp` names the value `OUT`. -/
inductive TypeOut where
  | OUT
  | ERR
  deriving DecidableEq, Repr

/-- The expression `(type==OUT)?_stdout[0]:_stderr[0]`. -/
def Process.stdpipe (p : Process) (type : TypeOut) : Int :=
  if type = TypeOut.OUT then p._stdout.fd0 else p._stderr.fd0

/-- The method `Process::get_exit_code`. -/
def Process.get_exit_code (p : Process) : Int :=
  p._exit_code

/-- The method `Process::set_memout`. -/
def Process.set_memout (p : Process) (memout_mb : Int) : Process :=
  { p with _memsize := memout_mb }

/-- The method `Process::cancel_memout`. -/
def Process.cancel_memout (p : Process) : Process :=
  { p with _memsize := 0 }

/-- The constructor `Process::Process(const string &path,const Args &args)`; the initial
descriptors of the three pipes are arguments as in `Process.new`. -/
def Process.ofPath (path : List Char) (args : Args) (stdin0 stdout0 stderr0 : Pipe) : Process :=
  let p := { Process.new stdin0 stdout0 stderr0 with _args := args, _path := path }
  if args.args.length > 0 then { p with name := args.get_program_name } else p

/-- The method `Process::write`; `result` is what `::write` returns if it is called. -/
def Process.write (p : Process) (data : List Char) (result : Int) : Outcome Unit :=
  if p._stdin.fd1 ≠ -1 then
    if result = -1 then
      { self := p, flow := Flow.thrown (p.name ++ ":进程读取错误！".toList),
        calls := [SysCall.write p._stdin.fd1 data] }
    else
      { self := p, flow := Flow.returned (), calls := [SysCall.write p._stdin.fd1 data] }
  else
    { self := p, flow := Flow.returned (), calls := [] }

/-- What `result+=buffer` appends when `buffer` is a `char` array: the characters before the
first `'\0'`. -/
def cString (buffer : List Char) : List Char :=
  buffer.takeWhile (fun c => c ≠ NUL)

/-- The loop `while(true)` of `Process::read`. The list holds what the successive calls
`::read(stdpipe,buffer,_buffer_size-1)` store (each at most `_buffer_size-1` bytes); an empty
entry, or the end of the list, is a call that returns `nbytes<=0`. The result is the
accumulated string and the number of `::read` calls made. -/
def readLoop : List (List Char) → List Char → List Char × Nat
  | [], result => (result, 1)
  | chunk :: rest, result =>
    if chunk.length ≤ 0 then (result, 1)
    else
      let r := readLoop rest (result ++ cString chunk)
      (r.1, r.2 + 1)

/-- The method `Process::read`; `chunks` is what the successive `::read` calls deliver. -/
def Process.read (p : Process) (type : TypeOut) (chunks : List (List Char)) :
    Outcome (List Char) :=
  let stdpipe := p.stdpipe type
  if stdpipe = -1 then
    { self := p, flow := Flow.returned [], calls := [] }
  else
    let r := readLoop chunks []
    { self := { p with _empty := if r.1 = [] then true else false },
      flow := Flow.returned r.1,
      calls := [SysCall.start_blocked stdpipe] ++ List.replicate r.2 (SysCall.read stdpipe)
        ++ [SysCall.close_blocked stdpipe] }

/-- The method `Process::read_char`; `byte` is `none` when `::read(stdpipe,&ch,1)` returns
`nbytes<=0` and otherwise the byte it stored in `ch`. -/
def Process.read_char (p : Process) (type : TypeOut) (byte : Option Char) : Outcome Char :=
  let stdpipe := p.stdpipe type
  if stdpipe = -1 then
    { self := p, flow := Flow.returned NUL, calls := [] }
  else
    let calls := [SysCall.start_blocked stdpipe, SysCall.read stdpipe,
      SysCall.close_blocked stdpipe]
    match byte with
    | some ch => { self := p, flow := Flow.returned ch, calls := calls }
    | none => { self := p, flow := Flow.returned (Char.ofNat 0), calls := calls }

/-! ## Process : sequences of calls -/

/-- One call on a `Process` together with the results of the system calls it may issue. -/
inductive Step where
  | start (r_stdin r_stdout r_stderr : Option Pipe) (os : LaunchOS)
  | wait (status : Int)
  | kill (signal : Int) (result : Int) (status : Int)
  | is_running (result : Int) (errno : Int)
  | timeout_callback (probe_result probe_errno kill_result status : Int)
  deriving DecidableEq, Repr

/-- The object after one call, and the system calls that call issued. -/
def Process.step (p : Process) : Step → Process × List SysCall
  | Step.start a b c os => ((p.start a b c os).self, (p.start a b c os).calls)
  | Step.wait status => ((p.wait status).self, (p.wait status).calls)
  | Step.kill signal result status =>
    ((p.kill signal result status).self, (p.kill signal result status).calls)
  | Step.is_running result errno =>
    ((p.is_running result errno).self, (p.is_running result errno).calls)
  | Step.timeout_callback pr pe kr status =>
    ((p.timeout_callback pr pe kr status).self, (p.timeout_callback pr pe kr status).calls)

/-- The object after a sequence of calls, and all system calls issued, in order. -/
def Process.run (p : Process) : List Step → Process × List SysCall
  | [] => (p, [])
  | s :: rest =>
    let a := p.step s
    let b := Process.run a.1 rest
    (b.1, a.2 ++ b.2)

/-- The local `int status;` of `wait()` after the call `waitpid(_pid,&status,0)`, whose return
value `wait()` does not look at: the word the operating system stored when it reaped a child
(`some`), and otherwise (`none`: `waitpid` returns `-1`, for instance because there is no child)
the indeterminate value the uninitialised local held. -/
def statusAfterWaitpid (uninitialised : Int) (delivered : Option Int) : Int :=
  match delivered with
  | some word => word
  | none => uninitialised

/-- Whether a system call is a `waitpid`. -/
def SysCall.isWaitpid : SysCall → Bool
  | SysCall.waitpid _ => true
  | _ => false

/-- The relation between the stored pid and the state that every modelled call keeps: a valid
pid (`> 0`) is stored only in state `RUNNING`, `ERROR` or `TIMEOUT`. -/
def PidInv (p : Process) : Prop :=
  0 < p._pid →
    p._status = Status.RUNNING ∨ p._status = Status.ERROR ∨ p._status = Status.TIMEOUT

/-- Re-scanning `cur` from a fresh `NORMAL` state rebuilds `cur` itself as the current argument
and ends in scanner state `st` with no escape pending, whatever tokens were pushed before. -/
def Replays (st : State) (cur : List Char) : Prop :=
  ∀ pushed : List (List Char),
    parseLoop { state := State.NORMAL, current_arg := [], escaped := false, args := pushed } cur
      = { state := st, current_arg := cur, escaped := false, args := pushed }

/-- The invariant of the loop of `Args::parse`: every pushed token is not empty and re-scans to
itself ending in state `NORMAL`, and the current argument re-scans to itself ending in the
current scanner state. -/
def ParseInv (s : ParseState) : Prop :=
  (∀ t ∈ s.args, t ≠ [] ∧ Replays State.NORMAL t) ∧ Replays s.state s.current_arg

/-- A process that owns a live child: state `RUNNING`, pid 100, the parent-side pipe ends open. -/
def runningChild : Process :=
  { _args := { args := ["prog".toList] }, _status := Status.RUNNING,
    _stdin := { fd0 := -1, fd1 := 4 }, _stdout := { fd0 := 5, fd1 := -1 },
    _stderr := { fd0 := 7, fd1 := -1 },
    _pid := 100, _path := "prog".toList, name := "prog".toList, _env_vars := [],
    _memsize := 0, _empty := true, _exit_code := -1 }

/-- A process that was never started: the default constructor with all pipe ends closed. -/
def neverStarted : Process :=
  Process.new { fd0 := -1, fd1 := -1 } { fd0 := -1, fd1 := -1 } { fd0 := -1, fd1 := -1 }

end process

open process

/-! ## Theorems -/

/-- The three special characters of the scanner are pairwise different, and the space is none
of them but is white space. -/
theorem special_chars :
    SQUOTE ≠ BACKSLASH ∧ DQUOTE ≠ BACKSLASH ∧ DQUOTE ≠ SQUOTE ∧ ' ' ≠ BACKSLASH ∧ ' ' ≠ SQUOTE
      ∧ ' ' ≠ DQUOTE ∧ isspace ' ' = true := by
  decide

/-- The loop over a concatenation is the loop over the second part from where the first ends. -/
theorem parseLoop_append (s : ParseState) (x y : List Char) :
    parseLoop s (x ++ y) = parseLoop (parseLoop s x) y := by
  simp [parseLoop, List.foldl_append]

/-- Extending a replayable argument by a character that the scanner appends unescaped. -/
theorem replays_snoc {st st2 : State} {cur : List Char} {c : Char} (h : Replays st cur)
    (hstep : ∀ pushed, parseStep ⟨st, cur, false, pushed⟩ c = ⟨st2, cur ++ [c], false, pushed⟩) :
    Replays st2 (cur ++ [c]) := by
  intro pushed
  rw [parseLoop_append, h pushed]
  simpa [parseLoop] using hstep pushed

/-- Extending a replayable argument by a backslash and the character it escapes. -/
theorem replays_escape {st : State} {cur : List Char} (c : Char) (h : Replays st cur) :
    Replays st (cur ++ [BACKSLASH, c]) := by
  intro pushed
  rw [parseLoop_append, h pushed]
  cases st <;> simp [parseLoop, parseStep]

/-- The empty argument replays in state `NORMAL`. -/
theorem replays_nil : Replays State.NORMAL [] := by
  intro pushed
  rfl

/-- The invariant holds before the loop. -/
theorem parseInv_init : ParseInv ParseState.init := by
  refine ⟨?_, replays_nil⟩
  intro t ht
  simp [ParseState.init] at ht

/-- One iteration of the loop keeps the invariant. -/
theorem parseInv_step {s : ParseState} (c : Char) (h : ParseInv s) : ParseInv (parseStep s c) := by
  obtain ⟨st, cur, esc, args⟩ := s
  obtain ⟨hargs, hcur⟩ := h
  simp only at hargs hcur
  cases esc with
  | true =>
    have : parseStep ⟨st, cur, true, args⟩ c = ⟨st, cur ++ [BACKSLASH, c], false, args⟩ := by
      simp [parseStep]
    rw [this]
    exact ⟨hargs, replays_escape c hcur⟩
  | false =>
    by_cases hb : c = BACKSLASH
    · have : parseStep ⟨st, cur, false, args⟩ c = ⟨st, cur, true, args⟩ := by
        cases st <;> simp [parseStep, hb]
      rw [this]
      exact ⟨hargs, hcur⟩
    · cases st with
      | NORMAL =>
        by_cases hq : c = SQUOTE
        · have hs : ∀ pushed, parseStep ⟨State.NORMAL, cur, false, pushed⟩ c
              = ⟨State.IN_QUOTE, cur ++ [c], false, pushed⟩ := by
            intro pushed; simp [parseStep, hb, hq, special_chars]
          rw [hs args]
          exact ⟨hargs, replays_snoc hcur hs⟩
        · by_cases hd : c = DQUOTE
          · have hs : ∀ pushed, parseStep ⟨State.NORMAL, cur, false, pushed⟩ c
                = ⟨State.IN_DQUOTE, cur ++ [c], false, pushed⟩ := by
              intro pushed; simp [parseStep, hb, hq, hd, special_chars]
            rw [hs args]
            exact ⟨hargs, replays_snoc hcur hs⟩
          · by_cases hsp : isspace c = true
            · by_cases he : cur = []
              · have : parseStep ⟨State.NORMAL, cur, false, args⟩ c
                    = ⟨State.NORMAL, cur, false, args⟩ := by
                  simp [parseStep, hb, hq, hd, hsp, he]
                rw [this]
                exact ⟨hargs, hcur⟩
              · have : parseStep ⟨State.NORMAL, cur, false, args⟩ c
                    = ⟨State.NORMAL, [], false, args ++ [cur]⟩ := by
                  simp [parseStep, hb, hq, hd, hsp, he]
                rw [this]
                refine ⟨?_, replays_nil⟩
                intro t ht
                rcases List.mem_append.mp ht with ht | ht
                · exact hargs t ht
                · rw [List.mem_singleton.mp ht]
                  exact ⟨he, hcur⟩
            · have hs : ∀ pushed, parseStep ⟨State.NORMAL, cur, false, pushed⟩ c
                  = ⟨State.NORMAL, cur ++ [c], false, pushed⟩ := by
                intro pushed; simp [parseStep, hb, hq, hd, hsp]
              rw [hs args]
              exact ⟨hargs, replays_snoc hcur hs⟩
      | IN_QUOTE =>
        by_cases hq : c = SQUOTE
        · have hs : ∀ pushed, parseStep ⟨State.IN_QUOTE, cur, false, pushed⟩ c
              = ⟨State.NORMAL, cur ++ [c], false, pushed⟩ := by
            intro pushed; simp [parseStep, hb, hq, special_chars]
          rw [hs args]
          exact ⟨hargs, replays_snoc hcur hs⟩
        · have hs : ∀ pushed, parseStep ⟨State.IN_QUOTE, cur, false, pushed⟩ c
              = ⟨State.IN_QUOTE, cur ++ [c], false, pushed⟩ := by
            intro pushed; simp [parseStep, hb, hq, special_chars]
          rw [hs args]
          exact ⟨hargs, replays_snoc hcur hs⟩
      | IN_DQUOTE =>
        by_cases hd : c = DQUOTE
        · have hs : ∀ pushed, parseStep ⟨State.IN_DQUOTE, cur, false, pushed⟩ c
              = ⟨State.NORMAL, cur ++ [c], false, pushed⟩ := by
            intro pushed; simp [parseStep, hb, hd, special_chars]
          rw [hs args]
          exact ⟨hargs, replays_snoc hcur hs⟩
        · have hs : ∀ pushed, parseStep ⟨State.IN_DQUOTE, cur, false, pushed⟩ c
              = ⟨State.IN_DQUOTE, cur ++ [c], false, pushed⟩ := by
            intro pushed; simp [parseStep, hb, hd, special_chars]
          rw [hs args]
          exact ⟨hargs, replays_snoc hcur hs⟩

/-- The loop keeps the invariant. -/
theorem parseInv_loop (input : List Char) : ∀ s : ParseState, ParseInv s →
    ParseInv (parseLoop s input) := by
  induction input with
  | nil => intro s h; exact h
  | cons c rest ih => intro s h; exact ih (parseStep s c) (parseInv_step c h)

/-- Joining a token with a non-empty rest puts one space between them. -/
theorem joinArgs_cons (t : List Char) (ts : List (List Char)) (h : ts ≠ []) :
    joinArgs (t :: ts) = t ++ ' ' :: joinArgs ts := by
  cases ts with
  | nil => exact absurd rfl h
  | cons u us => simp [joinArgs, List.intercalate, List.intersperse]

/-- Scanning the joined line of replayable tokens pushes all of them but the last, which is left
as the current argument in its own final scanner state. -/
theorem parseLoop_joinArgs (st : State) (t : List Char) (ht : Replays st t) :
    ∀ (ts pushed : List (List Char)), (∀ u ∈ ts, u ≠ [] ∧ Replays State.NORMAL u) →
      parseLoop ⟨State.NORMAL, [], false, pushed⟩ (joinArgs (ts ++ [t]))
        = ⟨st, t, false, pushed ++ ts⟩ := by
  intro ts
  induction ts with
  | nil =>
    intro pushed _
    simpa [joinArgs, List.intercalate] using ht pushed
  | cons u rest ih =>
    intro pushed h
    have hu := h u (List.mem_cons_self u rest)
    have hrest : ∀ v ∈ rest, v ≠ [] ∧ Replays State.NORMAL v :=
      fun v hv => h v (List.mem_cons_of_mem u hv)
    have hstep : parseStep ⟨State.NORMAL, u, false, pushed⟩ ' '
        = ⟨State.NORMAL, [], false, pushed ++ [u]⟩ := by
      simp [parseStep, special_chars, hu.1]
    rw [List.cons_append, joinArgs_cons u (rest ++ [t]) (by simp), parseLoop_append, hu.2 pushed]
    show parseLoop (parseStep ⟨State.NORMAL, u, false, pushed⟩ ' ') (joinArgs (rest ++ [t])) = _
    rw [hstep, ih (pushed ++ [u]) hrest]
    simp

/-- Tokens that satisfy the invariant are reproduced by joining them and scanning again. -/
theorem parseFinish_rejoin (s : ParseState) (h : ParseInv s) :
    parseFinish (parseLoop ParseState.init (joinArgs (parseFinish s))) = parseFinish s := by
  obtain ⟨st, cur, esc, args⟩ := s
  obtain ⟨hargs, hcur⟩ := h
  simp only at hargs hcur
  by_cases he : cur = []
  · have hf : parseFinish ⟨st, cur, esc, args⟩ = args := by simp [parseFinish, he]
    rw [hf]
    rcases List.eq_nil_or_concat args with hn | ⟨ts, t, hts⟩
    · subst hn
      decide
    · rw [List.concat_eq_append] at hts
      subst hts
      have ht := hargs t (by simp)
      have hts : ∀ u ∈ ts, u ≠ [] ∧ Replays State.NORMAL u :=
        fun u hu => hargs u (by simp [hu])
      have := parseLoop_joinArgs State.NORMAL t ht.2 ts [] hts
      simp only [ParseState.init]
      rw [this]
      simp [parseFinish, ht.1]
  · have hf : parseFinish ⟨st, cur, esc, args⟩ = args ++ [cur] := by simp [parseFinish, he]
    rw [hf]
    have := parseLoop_joinArgs st cur hcur args [] hargs
    simp only [ParseState.init]
    rw [this]
    simp [parseFinish, he]

/-- After `closeEnd` on index 0 the read end is `-1` and the write end is untouched. -/
theorem closeEnd_false_fst (a : Pipe) : (closeEnd a false).1 = ⟨-1, a.fd1⟩ := by
  cases a with
  | mk x y =>
    by_cases h : x = -1 <;> simp [closeEnd, Pipe.get, Pipe.set, h]

/-- After `closeEnd` on index 1 the write end is `-1` and the read end is untouched. -/
theorem closeEnd_true_fst (a : Pipe) : (closeEnd a true).1 = ⟨a.fd0, -1⟩ := by
  cases a with
  | mk x y =>
    by_cases h : y = -1 <;> simp [closeEnd, Pipe.get, Pipe.set, h]

/-- C1: for every command-line string `s` (and whatever tokens the object held before),
parsing `s`, joining the resulting tokens with single spaces and parsing the joined string
yields exactly the token sequence of the first parse. -/
theorem parse_join_parse (a : Args) (s : List Char) :
    (a.parse (joinArgs (a.parse s).get_args)).get_args = (a.parse s).get_args := by
  simp only [Args.parse, Args.get_args]
  exact parseFinish_rejoin _ (parseInv_loop s ParseState.init parseInv_init)

/-- C2: `Args::parse` applied to `echo 'a b' "c d" e` yields exactly the four tokens `echo`,
`'a b'`, `"c d"` and `e` in this order, with the quote characters retained and the inner spaces
kept, and the program name (token 0) is `echo`; this holds whatever tokens the object held. -/
theorem parse_echo_quoted (a : Args) :
    (a.parse "echo 'a b' \"c d\" e".toList).get_args
        = ["echo".toList, [SQUOTE, 'a', ' ', 'b', SQUOTE], [DQUOTE, 'c', ' ', 'd', DQUOTE],
            "e".toList]
      ∧ (a.parse "echo 'a b' \"c d\" e".toList).get_args.length = 4
      ∧ (a.parse "echo 'a b' \"c d\" e".toList).get_program_name = "echo".toList := by
  refine ⟨?_, ?_, ?_⟩ <;> simp only [Args.parse] <;> decide

/-- C3: `Args::parse` applied to the six characters `a`, backslash, space, `b`, space, `c`
yields exactly two tokens: first the four characters `a`, backslash, space, `b`, then `c`. -/
theorem parse_escaped_space (a : Args) :
    (a.parse ['a', BACKSLASH, ' ', 'b', ' ', 'c']).get_args
        = [['a', BACKSLASH, ' ', 'b'], ['c']]
      ∧ "a\\ b c".toList = ['a', BACKSLASH, ' ', 'b', ' ', 'c'] := by
  refine ⟨?_, ?_⟩
  · simp only [Args.parse]; decide
  · decide

/-- C4 (the code at the failing inputs): with no timeout recorded, a wait status that reports
termination by `SIGABRT` or by `SIGKILL` falls to the `default` label of the `switch`, because
the label `SIGABRT||SIGKILL` is the constant 1: `wait` returns `RuntimeError`, not
`MemoryLimitExceeded`, and the state becomes `RE`. -/
theorem wait_sigabrt_sigkill_runtime_error (p : Process) (status : Int)
    (hT : p._status ≠ Status.TIMEOUT) (hsig : WIFSIGNALED status = true)
    (h : WTERMSIG status = SIGABRT ∨ WTERMSIG status = SIGKILL) :
    (p.wait status).flow = Flow.returned JudgeCode.RuntimeError
      ∧ (p.wait status).flow ≠ Flow.returned JudgeCode.MemoryLimitExceeded
      ∧ (p.wait status).self._status = Status.RE := by
  have hE : WIFEXITED status = false := by
    rcases h with h | h <;> simp [WIFEXITED, h, SIGABRT, SIGKILL]
  rcases h with h | h <;>
    simp [Process.wait, hT, hE, hsig, h, SIGABRT, SIGKILL, SIGSEGV, SIGFPE, logicalOr]

/-- Witness of `wait_sigabrt_sigkill_runtime_error`: the status word 6 (killed by `SIGABRT`). -/
theorem wait_sigabrt_sigkill_runtime_error_witness :
    runningChild._status ≠ Status.TIMEOUT ∧ WIFSIGNALED 6 = true ∧ WTERMSIG 6 = SIGABRT
      ∧ (runningChild.wait 6).flow = Flow.returned JudgeCode.RuntimeError
      ∧ (runningChild.wait 6).flow ≠ Flow.returned JudgeCode.MemoryLimitExceeded
      ∧ (runningChild.wait 6).self._status = Status.RE :=
  ⟨by decide, by decide, by decide,
    wait_sigabrt_sigkill_runtime_error runningChild 6 (by decide) (by decide)
      (Or.inl (by decide))⟩

/-- C5: with no timeout recorded and a wait status that reports termination by a signal, `wait`
returns `RuntimeError` for `SIGSEGV` and `FloatingPointError` for `SIGFPE`, and in both cases the
state becomes `RE`. -/
theorem wait_sigsegv_sigfpe (p : Process) (status : Int)
    (hT : p._status ≠ Status.TIMEOUT) (hsig : WIFSIGNALED status = true) :
    (WTERMSIG status = SIGSEGV →
        (p.wait status).flow = Flow.returned JudgeCode.RuntimeError
          ∧ (p.wait status).self._status = Status.RE)
      ∧ (WTERMSIG status = SIGFPE →
        (p.wait status).flow = Flow.returned JudgeCode.FloatingPointError
          ∧ (p.wait status).self._status = Status.RE) := by
  constructor
  · intro h
    have hE : WIFEXITED status = false := by simp [WIFEXITED, h, SIGSEGV]
    simp [Process.wait, hT, hE, hsig, h]
  · intro h
    have hE : WIFEXITED status = false := by simp [WIFEXITED, h, SIGFPE]
    simp [Process.wait, hT, hE, hsig, h, SIGSEGV, SIGFPE, logicalOr, SIGABRT, SIGKILL]

/-- Witness of `wait_sigsegv_sigfpe`: the status words 11 (`SIGSEGV`) and 8 (`SIGFPE`). -/
theorem wait_sigsegv_sigfpe_witness :
    ((runningChild.wait 11).flow = Flow.returned JudgeCode.RuntimeError
        ∧ (runningChild.wait 11).self._status = Status.RE)
      ∧ ((runningChild.wait 8).flow = Flow.returned JudgeCode.FloatingPointError
        ∧ (runningChild.wait 8).self._status = Status.RE) :=
  ⟨(wait_sigsegv_sigfpe runningChild 11 (by decide) (by decide)).1 (by decide),
    (wait_sigsegv_sigfpe runningChild 8 (by decide) (by decide)).2 (by decide)⟩

/-- C6 (the code at the failing input): with no timeout recorded, a wait status that reports
termination by `SIGHUP` (signal 1) matches the label `SIGABRT||SIGKILL`, whose value is 1: `wait`
returns `MemoryLimitExceeded`, not `RuntimeError`; the state becomes `RE`. -/
theorem wait_sighup_memory_limit (p : Process) (status : Int)
    (hT : p._status ≠ Status.TIMEOUT) (hsig : WIFSIGNALED status = true)
    (h : WTERMSIG status = SIGHUP) :
    (p.wait status).flow = Flow.returned JudgeCode.MemoryLimitExceeded
      ∧ (p.wait status).flow ≠ Flow.returned JudgeCode.RuntimeError
      ∧ (p.wait status).self._status = Status.RE := by
  have hE : WIFEXITED status = false := by simp [WIFEXITED, h, SIGHUP]
  simp [Process.wait, hT, hE, hsig, h, SIGHUP, SIGABRT, SIGKILL, SIGSEGV, SIGFPE, logicalOr]

/-- Witness of `wait_sighup_memory_limit`: the status word 1 (killed by `SIGHUP`). -/
theorem wait_sighup_memory_limit_witness :
    runningChild._status ≠ Status.TIMEOUT ∧ WIFSIGNALED 1 = true ∧ WTERMSIG 1 = SIGHUP
      ∧ (runningChild.wait 1).flow = Flow.returned JudgeCode.MemoryLimitExceeded
      ∧ (runningChild.wait 1).flow ≠ Flow.returned JudgeCode.RuntimeError
      ∧ (runningChild.wait 1).self._status = Status.RE :=
  ⟨by decide, by decide, by decide,
    wait_sighup_memory_limit runningChild 1 (by decide) (by decide) (by decide)⟩

/-- C7: for every wait status that denotes a normal exit, with no timeout recorded, `wait`
returns `Waiting`; the state becomes `STOP` exactly when the exit code is 0 and `ERROR` exactly
when it is not; and the stored pid is cleared to `-1`. -/
theorem wait_normal_exit (p : Process) (status : Int)
    (hT : p._status ≠ Status.TIMEOUT) (hE : WIFEXITED status = true) :
    (p.wait status).flow = Flow.returned JudgeCode.Waiting
      ∧ ((p.wait status).self._status = Status.STOP ↔ WEXITSTATUS status = 0)
      ∧ ((p.wait status).self._status = Status.ERROR ↔ WEXITSTATUS status ≠ 0)
      ∧ (p.wait status).self._pid = -1 := by
  by_cases h0 : WEXITSTATUS status = 0 <;> simp [Process.wait, hT, hE, h0]

/-- Witness of `wait_normal_exit`: the status word 768 (normal exit with code 3). -/
theorem wait_normal_exit_witness :
    WEXITSTATUS 768 = 3
      ∧ (runningChild.wait 768).flow = Flow.returned JudgeCode.Waiting
      ∧ ((runningChild.wait 768).self._status = Status.STOP ↔ WEXITSTATUS 768 = 0)
      ∧ ((runningChild.wait 768).self._status = Status.ERROR ↔ WEXITSTATUS 768 ≠ 0)
      ∧ (runningChild.wait 768).self._pid = -1 :=
  ⟨by decide, wait_normal_exit runningChild 768 (by decide) (by decide)⟩

/-- C8: if the timeout callback runs to completion on a running child (the liveness probe
`is_running()` answers true and the `SIGKILL` is delivered, i.e. `::kill` returns 0), then
afterwards the state is `TIMEOUT`; the next `wait()` returns `TimeLimitExceeded` whatever status
word the operating system stores; and `is_running()` called after that returns false. -/
theorem timeout_takes_priority (p : Process) (probe_result probe_errno kill_result reaped : Int)
    (hprobe : (p.is_running probe_result probe_errno).flow = Flow.returned true)
    (hkill : kill_result = 0) :
    (p.timeout_callback probe_result probe_errno kill_result reaped).self._status
        = Status.TIMEOUT
      ∧ ∀ status : Int,
        ((p.timeout_callback probe_result probe_errno kill_result reaped).self.wait status).flow
            = Flow.returned JudgeCode.TimeLimitEXceeded
          ∧ ∀ result errno : Int,
            (((p.timeout_callback probe_result probe_errno kill_result reaped).self.wait
                status).self.is_running result errno).flow = Flow.returned false := by
  subst hkill
  have hT : (p.timeout_callback probe_result probe_errno 0 reaped).self._status
      = Status.TIMEOUT := by
    simp [Process.timeout_callback, hprobe]
  refine ⟨hT, fun status => ?_⟩
  have hw : ((p.timeout_callback probe_result probe_errno 0 reaped).self.wait status)
      = { self := { (p.timeout_callback probe_result probe_errno 0 reaped).self with
                    _exit_code := status, _pid := -1 },
          flow := Flow.returned JudgeCode.TimeLimitEXceeded,
          calls := [SysCall.waitpid
            (p.timeout_callback probe_result probe_errno 0 reaped).self._pid] } := by
    simp [Process.wait, hT]
  rw [hw]
  refine ⟨rfl, fun result errno => ?_⟩
  simp [Process.is_running]

/-- Witness of `timeout_takes_priority`: the running child with pid 100, probe and kill both
answering 0, and the killed child reaped with status word 9. -/
theorem timeout_takes_priority_witness :
    (runningChild.timeout_callback 0 0 0 9).self._status = Status.TIMEOUT
      ∧ ∀ status : Int,
        ((runningChild.timeout_callback 0 0 0 9).self.wait status).flow
            = Flow.returned JudgeCode.TimeLimitEXceeded
          ∧ ∀ result errno : Int,
            (((runningChild.timeout_callback 0 0 0 9).self.wait
                status).self.is_running result errno).flow = Flow.returned false :=
  timeout_takes_priority runningChild 0 0 0 9 (by decide) rfl

/-- C9: for every signal number, `kill` on a process that owns no child (stored pid `<= 0`)
returns false, throws nothing, issues no system call (so sends no signal) and leaves the whole
object unchanged. -/
theorem kill_without_child (p : Process) (signal result status : Int) (h : p._pid ≤ 0) :
    (p.kill signal result status).flow = Flow.returned false
      ∧ (p.kill signal result status).calls = []
      ∧ (p.kill signal result status).self = p := by
  simp [Process.kill, h]

/-- Witness of `kill_without_child`: a process that was never started, sent `SIGKILL`. -/
theorem kill_without_child_witness :
    neverStarted._pid ≤ 0
      ∧ (neverStarted.kill SIGKILL 0 0).flow = Flow.returned false
      ∧ (neverStarted.kill SIGKILL 0 0).calls = []
      ∧ (neverStarted.kill SIGKILL 0 0).self = neverStarted :=
  ⟨by decide, kill_without_child neverStarted SIGKILL 0 0 (by decide)⟩

/-- C10 (counterexample): `start` on the running child with pid 100, with the three `pipe` calls
and the `fork` succeeding (new pid 200), is not rejected: it returns normally, creates three
pipes and forks, and overwrites the stored pid and the pipe descriptors. -/
theorem start_while_running_counterexample :
    runningChild._status = Status.RUNNING
      ∧ (runningChild.start (some ⟨10, 11⟩) (some ⟨12, 13⟩) (some ⟨14, 15⟩) ⟨200, 0, false⟩).flow
          = Flow.returned ()
      ∧ (runningChild.start (some ⟨10, 11⟩) (some ⟨12, 13⟩) (some ⟨14, 15⟩) ⟨200, 0, false⟩).calls
          = [SysCall.pipe, SysCall.pipe, SysCall.pipe, SysCall.fork,
              SysCall.close 10, SysCall.close 13, SysCall.close 15]
      ∧ (runningChild.start (some ⟨10, 11⟩) (some ⟨12, 13⟩) (some ⟨14, 15⟩)
            ⟨200, 0, false⟩).self._pid ≠ runningChild._pid
      ∧ (runningChild.start (some ⟨10, 11⟩) (some ⟨12, 13⟩) (some ⟨14, 15⟩)
            ⟨200, 0, false⟩).self._stdin ≠ runningChild._stdin := by
  decide

/-- C10 (amended): `start` does not look at the state. Called while the state is `RUNNING`, it
throws exactly when one of the three `pipe` calls fails or `fork` returns a negative value; when
the three `pipe` calls succeed and `fork` returns a positive pid, it returns normally after
three `pipe` calls and one `fork`, stores the new pid, keeps the state `RUNNING`, and replaces
the pipe members by the new descriptors with the child-side ends closed. -/
theorem start_while_running (p : Process) (r_stdin r_stdout r_stderr : Option Pipe)
    (os : LaunchOS) (hrun : p._status = Status.RUNNING) :
    ((∃ what, (p.start r_stdin r_stdout r_stderr os).flow = Flow.thrown what)
        ↔ (r_stdin = none ∨ r_stdout = none ∨ r_stderr = none ∨ os.fork_result < 0))
      ∧ ∀ a b c : Pipe, r_stdin = some a → r_stdout = some b → r_stderr = some c →
          0 < os.fork_result →
          (p.start r_stdin r_stdout r_stderr os).flow = Flow.returned ()
            ∧ (p.start r_stdin r_stdout r_stderr os).calls.take 4
                = [SysCall.pipe, SysCall.pipe, SysCall.pipe, SysCall.fork]
            ∧ (p.start r_stdin r_stdout r_stderr os).self._pid = os.fork_result
            ∧ (p.start r_stdin r_stdout r_stderr os).self._status = Status.RUNNING
            ∧ (p.start r_stdin r_stdout r_stderr os).self._stdin = ⟨-1, a.fd1⟩
            ∧ (p.start r_stdin r_stdout r_stderr os).self._stdout = ⟨b.fd0, -1⟩
            ∧ (p.start r_stdin r_stdout r_stderr os).self._stderr = ⟨c.fd0, -1⟩ := by
  have _ := hrun
  constructor
  · cases r_stdin with
    | none => simp [Process.start, Process.init_pipe]
    | some a =>
      cases r_stdout with
      | none => simp [Process.start, Process.init_pipe]
      | some b =>
        cases r_stderr with
        | none => simp [Process.start, Process.init_pipe]
        | some c =>
          rcases lt_trichotomy os.fork_result 0 with h | h | h
          · have h0 : os.fork_result ≠ 0 := by omega
            simp [Process.start, Process.init_pipe, Process.launch, h, h0]
          · by_cases hm : p._memsize ≠ 0 ∧ os.setrlimit_result = -1 <;>
              simp [Process.start, Process.init_pipe, Process.launch, h, hm]
          · have h0 : os.fork_result ≠ 0 := by omega
            have h1 : ¬ os.fork_result < 0 := by omega
            simp [Process.start, Process.init_pipe, Process.launch, h0, h1]
  · intro a b c ha hb hc hpos
    subst ha hb hc
    have h0 : os.fork_result ≠ 0 := by omega
    have h1 : ¬ os.fork_result < 0 := by omega
    simp [Process.start, Process.init_pipe, Process.launch, h0, h1, Process.close_pipe,
      closeEnd_false_fst, closeEnd_true_fst]

/-- Witness of `start_while_running`: the running child with pid 100, started again with the three
`pipe` calls and the `fork` succeeding (new pid 200). -/
theorem start_while_running_witness :
    (runningChild.start (some ⟨10, 11⟩) (some ⟨12, 13⟩) (some ⟨14, 15⟩) ⟨200, 0, false⟩).flow
        = Flow.returned ()
      ∧ (runningChild.start (some ⟨10, 11⟩) (some ⟨12, 13⟩) (some ⟨14, 15⟩)
            ⟨200, 0, false⟩).self._pid = 200 :=
  have h := (start_while_running runningChild (some ⟨10, 11⟩) (some ⟨12, 13⟩) (some ⟨14, 15⟩)
    ⟨200, 0, false⟩ (by decide)).2 ⟨10, 11⟩ ⟨12, 13⟩ ⟨14, 15⟩ rfl rfl rfl (by decide)
  ⟨h.1, h.2.2.1⟩

/-- C11 (counterexample): on a process that was never started the stdin write end is closed,
and `write` returns normally without issuing any system call, whatever the operating system
would have answered: the closed end is not reported as a failed write. -/
theorem write_closed_counterexample :
    neverStarted._stdin.fd1 = -1
      ∧ (neverStarted.write "input".toList 5).flow = Flow.returned ()
      ∧ (neverStarted.write "input".toList (-1)).flow = Flow.returned ()
      ∧ (neverStarted.write "input".toList (-1)).calls = [] := by
  decide

/-- C11 (amended): for every data string, `write` throws exactly when the stdin write end is
open and the operating-system write returns `-1`; when the write end is closed it issues no
system call and returns normally; in every case the object is left unchanged. -/
theorem write_fails_iff (p : Process) (data : List Char) (result : Int) :
    ((∃ what, (p.write data result).flow = Flow.thrown what)
        ↔ (p._stdin.fd1 ≠ -1 ∧ result = -1))
      ∧ (p._stdin.fd1 = -1 →
          (p.write data result).flow = Flow.returned () ∧ (p.write data result).calls = [])
      ∧ (p.write data result).self = p := by
  by_cases ho : p._stdin.fd1 = -1
  · simp [Process.write, ho]
  · by_cases hr : result = -1 <;> simp [Process.write, ho, hr]

/-- Witness of `write_fails_iff`: the running child (write end 4) with a failing write throws,
and the process that was never started returns normally without a system call. -/
theorem write_fails_iff_witness :
    (∃ what, (runningChild.write "input".toList (-1)).flow = Flow.thrown what)
      ∧ (neverStarted.write "input".toList (-1)).flow = Flow.returned ()
      ∧ (neverStarted.write "input".toList (-1)).calls = [] :=
  ⟨(write_fails_iff runningChild "input".toList (-1)).1.mpr ⟨by decide, rfl⟩,
    (write_fails_iff neverStarted "input".toList (-1)).2.1 (by decide)⟩

/-- C12 (counterexample): on an open read end, `read_char` for a stream that delivers the zero
byte returns the same value as `read_char` when no byte was available. -/
theorem read_char_nul_counterexample :
    runningChild.stdpipe TypeOut.OUT ≠ -1
      ∧ (runningChild.read_char TypeOut.OUT (some NUL)).flow
          = (runningChild.read_char TypeOut.OUT none).flow := by
  decide

/-- C12 (amended): `read_char` returns the character `'\0'` when no byte was available (the
read returned `<= 0`, or the read end is closed) and the byte itself after reading one; so for
every byte `b` other than the zero byte the result for a stream delivering `b` differs from the
no-byte result, and for the zero byte the two results are the same. -/
theorem read_char_sentinel (p : Process) (type : TypeOut) (b : Char)
    (hopen : p.stdpipe type ≠ -1) :
    (p.read_char type (some b)).flow = Flow.returned b
      ∧ (p.read_char type none).flow = Flow.returned NUL
      ∧ (∀ (q : Process) (byte : Option Char), q.stdpipe type = -1 →
          (q.read_char type byte).flow = Flow.returned NUL)
      ∧ ((p.read_char type (some b)).flow ≠ (p.read_char type none).flow ↔ b ≠ NUL) := by
  have h1 : (p.read_char type (some b)).flow = Flow.returned b := by
    simp [Process.read_char, hopen]
  have h2 : (p.read_char type none).flow = Flow.returned NUL := by
    simp [Process.read_char, hopen, NUL]
  refine ⟨h1, h2, ?_, ?_⟩
  · intro q byte hq
    simp [Process.read_char, hq]
  · rw [h1, h2]
    simp

/-- Witness of `read_char_sentinel`: the running child (stdout read end 5) delivering `x`. -/
theorem read_char_sentinel_witness :
    runningChild.stdpipe TypeOut.OUT ≠ -1
      ∧ (runningChild.read_char TypeOut.OUT (some 'x')).flow = Flow.returned 'x'
      ∧ (runningChild.read_char TypeOut.OUT none).flow = Flow.returned NUL
      ∧ (runningChild.read_char TypeOut.OUT (some 'x')).flow
          ≠ (runningChild.read_char TypeOut.OUT none).flow :=
  have h := read_char_sentinel runningChild TypeOut.OUT 'x' (by decide)
  ⟨by decide, h.1, h.2.1, h.2.2.2.mpr (by decide)⟩

/-- A buffer without a zero byte is appended whole. -/
theorem cString_of_no_nul (buffer : List Char) (h : NUL ∉ buffer) : cString buffer = buffer := by
  unfold cString
  rw [List.takeWhile_eq_self_iff]
  intro c hc
  simp only [decide_eq_true_eq]
  intro hcn
  exact h (hcn ▸ hc)

/-- The loop of `read` over chunks that all carry data appends the C string of each chunk. -/
theorem readLoop_fst (chunks : List (List Char)) :
    ∀ result : List Char, (∀ c ∈ chunks, c ≠ []) →
      (readLoop chunks result).1 = result ++ (chunks.map cString).flatten := by
  induction chunks with
  | nil => intro result _; simp [readLoop]
  | cons c rest ih =>
    intro result h
    have hc : c ≠ [] := h c (List.mem_cons_self c rest)
    have hlen : ¬ c.length ≤ 0 := by
      have := List.length_pos.mpr hc
      omega
    have hrest : ∀ d ∈ rest, d ≠ [] := fun d hd => h d (List.mem_cons_of_mem c hd)
    simp [readLoop, hlen, ih (result ++ cString c) hrest]

/-- C13 (the code at the failing input): on an open read end, for chunks that all carry data,
`read` returns the concatenation of the chunks each cut at its first zero byte, because
`result+=buffer` appends a C string; it is the concatenation of all bytes only when no chunk
contains a zero byte. -/
theorem read_appends_c_strings (p : Process) (type : TypeOut) (chunks : List (List Char))
    (hopen : p.stdpipe type ≠ -1) (hdata : ∀ c ∈ chunks, c ≠ []) :
    (p.read type chunks).flow = Flow.returned (chunks.map cString).flatten
      ∧ ((∀ c ∈ chunks, NUL ∉ c) → (p.read type chunks).flow = Flow.returned chunks.flatten) := by
  have h1 : (p.read type chunks).flow = Flow.returned (chunks.map cString).flatten := by
    simp [Process.read, hopen, readLoop_fst chunks [] hdata]
  refine ⟨h1, fun hn => ?_⟩
  rw [h1]
  have : chunks.map cString = chunks := by
    conv_rhs => rw [← List.map_id chunks]
    exact List.map_congr_left (fun c hc => cString_of_no_nul c (hn c hc))
  rw [this]

/-- Witness of `read_appends_c_strings`: the running child delivering the single chunk `a`, zero
byte, `b`: `read` returns `a` alone, not the three bytes; the chunk `hello\n` is returned whole. -/
theorem read_appends_c_strings_witness :
    (runningChild.read TypeOut.OUT [['a', NUL, 'b']]).flow = Flow.returned ['a']
      ∧ (runningChild.read TypeOut.OUT [['a', NUL, 'b']]).flow
          ≠ Flow.returned [['a', NUL, 'b']].flatten
      ∧ (runningChild.read TypeOut.OUT ["hello\n".toList]).flow
          = Flow.returned "hello\n".toList :=
  have h := (read_appends_c_strings runningChild TypeOut.OUT [['a', NUL, 'b']] (by decide)
    (by decide)).1
  ⟨h.trans (by decide), by rw [h]; decide,
    (read_appends_c_strings runningChild TypeOut.OUT ["hello\n".toList] (by decide)
      (by decide)).2 (by decide)⟩

/-- Every branch of `wait` clears the stored pid. -/
theorem wait_pid (p : Process) (status : Int) : (p.wait status).self._pid = -1 := by
  unfold Process.wait
  simp only
  split_ifs <;> rfl

/-- Closing pipe ends touches neither the pid nor the state. -/
theorem close_pipe_pid_status (p : Process) (flag : Bool) :
    (p.close_pipe flag).self._pid = p._pid ∧ (p.close_pipe flag).self._status = p._status := by
  simp [Process.close_pipe]

/-- The method `close` touches neither the pid nor the state. -/
theorem close_pid_status (p : Process) :
    (p.close).self._pid = p._pid ∧ (p.close).self._status = p._status := by
  simp [Process.close, close_pipe_pid_status]

/-- The relation `PidInv` holds after `wait`. -/
theorem pidInv_wait (p : Process) (status : Int) : PidInv (p.wait status).self := by
  intro h
  rw [wait_pid] at h
  omega

/-- The relation `PidInv` is kept by `kill`. -/
theorem pidInv_kill (p : Process) (signal result status : Int) (h : PidInv p) :
    PidInv (p.kill signal result status).self := by
  unfold Process.kill
  split_ifs with h1 h2 h3
  · exact h
  · intro hpos
    simp only [(close_pid_status _).1, wait_pid] at hpos
    omega
  · exact h
  · exact h

/-- The relation `PidInv` holds after `is_running`, whatever held before. -/
theorem pidInv_is_running (p : Process) (result errno : Int) :
    PidInv (p.is_running result errno).self := by
  unfold Process.is_running
  split_ifs with h1 h2 h3 h4
  · intro hpos
    exact absurd hpos (by simpa using h1)
  · intro _; exact Or.inl rfl
  · intro hpos
    simp at hpos
  · intro _; exact Or.inl rfl
  · intro _; exact Or.inr (Or.inl rfl)

/-- The relation `PidInv` holds after the timeout callback. -/
theorem pidInv_timeout_callback (p : Process) (pr pe kr status : Int) :
    PidInv (p.timeout_callback pr pe kr status).self := by
  unfold Process.timeout_callback
  simp only
  split_ifs with h1
  · intro _; exact Or.inr (Or.inr rfl)
  · exact pidInv_is_running p pr pe

/-- After `launch` the stored pid is what `fork` returned, and a positive one comes with state
`RUNNING`. -/
theorem launch_pid_status (p : Process) (arg : List Char) (args : List (List Char))
    (os : LaunchOS) :
    (p.launch arg args os).self._pid = os.fork_result
      ∧ (0 < os.fork_result → (p.launch arg args os).self._status = Status.RUNNING) := by
  rcases lt_trichotomy os.fork_result 0 with h | h | h
  · have h0 : os.fork_result ≠ 0 := by omega
    have h1 : ¬ 0 < os.fork_result := by omega
    simp [Process.launch, h, h0, h1]
  · by_cases hm : p._memsize ≠ 0 ∧ os.setrlimit_result = -1 <;>
      simp [Process.launch, h, hm, close_pipe_pid_status]
  · have h0 : os.fork_result ≠ 0 := by omega
    have h1 : ¬ os.fork_result < 0 := by omega
    simp [Process.launch, h0, h1, close_pipe_pid_status]

/-- The relation `PidInv` holds after `launch`, whatever held before. -/
theorem pidInv_launch (p : Process) (arg : List Char) (args : List (List Char)) (os : LaunchOS) :
    PidInv (p.launch arg args os).self := by
  intro hpos
  rw [(launch_pid_status p arg args os).1] at hpos
  exact Or.inl ((launch_pid_status p arg args os).2 hpos)

/-- The method `init_pipe` touches neither the pid nor the state. -/
theorem init_pipe_pid_status (p : Process) (a b c : Option Pipe) :
    (p.init_pipe a b c).self._pid = p._pid ∧ (p.init_pipe a b c).self._status = p._status := by
  cases a <;> cases b <;> cases c <;> simp [Process.init_pipe]

/-- The relation `PidInv` is kept by `start`. -/
theorem pidInv_start (p : Process) (a b c : Option Pipe) (os : LaunchOS) (h : PidInv p) :
    PidInv (p.start a b c os).self := by
  have hi : PidInv (p.init_pipe a b c).self := by
    intro hpos
    rw [(init_pipe_pid_status p a b c).1] at hpos
    rw [(init_pipe_pid_status p a b c).2]
    exact h hpos
  unfold Process.start
  simp only
  split
  · exact pidInv_launch _ _ _ _
  · exact hi
  · exact hi

/-- The relation `PidInv` is kept by every call. -/
theorem pidInv_step (p : Process) (s : Step) (h : PidInv p) : PidInv (p.step s).1 := by
  cases s with
  | start a b c os => exact pidInv_start p a b c os h
  | wait status => exact pidInv_wait p status
  | kill signal result status => exact pidInv_kill p signal result status h
  | is_running result errno => exact pidInv_is_running p result errno
  | timeout_callback pr pe kr status => exact pidInv_timeout_callback p pr pe kr status

/-- The relation `PidInv` is kept by every sequence of calls. -/
theorem pidInv_run (steps : List Step) : ∀ p : Process, PidInv p → PidInv (p.run steps).1 := by
  induction steps with
  | nil => intro p h; exact h
  | cons s rest ih => intro p h; exact ih (p.step s).1 (pidInv_step p s h)

/-- C14 (counterexample): from a freshly constructed process, `start` with `fork` returning pid
100 followed by `is_running` whose probe fails with an `errno` other than `ESRCH` and `EPERM`
(here 22) leaves pid 100 stored in state `ERROR`; and `start` followed by a timeout callback
whose probe fails with `EPERM` and whose `SIGKILL` is not delivered leaves pid 100 stored in
state `TIMEOUT`. -/
theorem pid_valid_not_running_counterexample :
    ((neverStarted.run [Step.start (some ⟨3, 4⟩) (some ⟨5, 6⟩) (some ⟨7, 8⟩) ⟨100, 0, false⟩,
          Step.is_running (-1) 22]).1._pid = 100
        ∧ (neverStarted.run [Step.start (some ⟨3, 4⟩) (some ⟨5, 6⟩) (some ⟨7, 8⟩)
            ⟨100, 0, false⟩, Step.is_running (-1) 22]).1._status = Status.ERROR)
      ∧ ((neverStarted.run [Step.start (some ⟨3, 4⟩) (some ⟨5, 6⟩) (some ⟨7, 8⟩)
            ⟨100, 0, false⟩, Step.timeout_callback (-1) 1 (-1) 0]).1._pid = 100
        ∧ (neverStarted.run [Step.start (some ⟨3, 4⟩) (some ⟨5, 6⟩) (some ⟨7, 8⟩)
            ⟨100, 0, false⟩, Step.timeout_callback (-1) 1 (-1) 0]).1._status
              = Status.TIMEOUT) := by
  decide

/-- C14 (amended): in every state reached from a freshly constructed process (by either
constructor) through any sequence of `start`, `wait`, `kill`, `is_running` and timeout-callback
calls, with arbitrary results of the system calls, the stored pid is valid (`> 0`) only if the
state is `RUNNING`, `ERROR` or `TIMEOUT`. -/
theorem pid_valid_only_if (a b c : Pipe) (path : List Char) (args : Args) (steps : List Step) :
    (0 < ((Process.new a b c).run steps).1._pid →
        ((Process.new a b c).run steps).1._status = Status.RUNNING
          ∨ ((Process.new a b c).run steps).1._status = Status.ERROR
          ∨ ((Process.new a b c).run steps).1._status = Status.TIMEOUT)
      ∧ (0 < ((Process.ofPath path args a b c).run steps).1._pid →
        ((Process.ofPath path args a b c).run steps).1._status = Status.RUNNING
          ∨ ((Process.ofPath path args a b c).run steps).1._status = Status.ERROR
          ∨ ((Process.ofPath path args a b c).run steps).1._status = Status.TIMEOUT) := by
  constructor
  · apply pidInv_run steps
    intro h
    simp [Process.new] at h
  · apply pidInv_run steps
    intro h
    unfold Process.ofPath at h
    simp only at h
    split_ifs at h <;> simp [Process.new] at h

/-- Witness of `pid_valid_only_if`: after `start` with `fork` returning 100 and an `is_running`
whose probe fails with `errno` 22, the pid is 100 and the state is one of the three. -/
theorem pid_valid_only_if_witness :
    0 < ((Process.new ⟨-1, -1⟩ ⟨-1, -1⟩ ⟨-1, -1⟩).run
          [Step.start (some ⟨3, 4⟩) (some ⟨5, 6⟩) (some ⟨7, 8⟩) ⟨100, 0, false⟩,
            Step.is_running (-1) 22]).1._pid
      ∧ (((Process.new ⟨-1, -1⟩ ⟨-1, -1⟩ ⟨-1, -1⟩).run
          [Step.start (some ⟨3, 4⟩) (some ⟨5, 6⟩) (some ⟨7, 8⟩) ⟨100, 0, false⟩,
            Step.is_running (-1) 22]).1._status = Status.RUNNING
        ∨ ((Process.new ⟨-1, -1⟩ ⟨-1, -1⟩ ⟨-1, -1⟩).run
          [Step.start (some ⟨3, 4⟩) (some ⟨5, 6⟩) (some ⟨7, 8⟩) ⟨100, 0, false⟩,
            Step.is_running (-1) 22]).1._status = Status.ERROR
        ∨ ((Process.new ⟨-1, -1⟩ ⟨-1, -1⟩ ⟨-1, -1⟩).run
          [Step.start (some ⟨3, 4⟩) (some ⟨5, 6⟩) (some ⟨7, 8⟩) ⟨100, 0, false⟩,
            Step.is_running (-1) 22]).1._status = Status.TIMEOUT) :=
  ⟨by decide,
    (pid_valid_only_if ⟨-1, -1⟩ ⟨-1, -1⟩ ⟨-1, -1⟩ [] { args := [] }
      [Step.start (some ⟨3, 4⟩) (some ⟨5, 6⟩) (some ⟨7, 8⟩) ⟨100, 0, false⟩,
        Step.is_running (-1) 22]).1 (by decide)⟩

/-- Closing pipe ends issues only `close` calls. -/
theorem close_pipe_calls (p : Process) (flag : Bool) (call : SysCall)
    (h : call ∈ (p.close_pipe flag).calls) : ∃ fd, call = SysCall.close fd := by
  simp only [Process.close_pipe, closeEnd] at h
  split_ifs at h <;> simp at h <;> aesop

/-- C15 (the code at the failing inputs): with a positive `int` memory limit set by
`set_memout`, the child branch of `launch` installs one address-space limit, soft equal to hard,
whose value is `_memsize*1024*1024` wrapped to 32 bits and converted to `rlim_t`. That value is
`memout_mb * 1048576` exactly when `memout_mb <= 2047`; for 2048 it is 18446744071562067968 and
for 4096 it is 0. -/
theorem launch_rlimit (p : Process) (memout_mb : Int) (arg : List Char)
    (args : List (List Char)) (os : LaunchOS)
    (hpos : 0 < memout_mb) (hint : memout_mb ≤ 2147483647) (hchild : os.fork_result = 0) :
    SysCall.setrlimit_AS (rlimitBytes memout_mb) (rlimitBytes memout_mb)
        ∈ ((p.set_memout memout_mb).launch arg args os).calls
      ∧ (∀ cur max : Nat,
          SysCall.setrlimit_AS cur max ∈ ((p.set_memout memout_mb).launch arg args os).calls →
            cur = rlimitBytes memout_mb ∧ max = rlimitBytes memout_mb)
      ∧ (rlimitBytes memout_mb = (memout_mb * 1048576).toNat ↔ memout_mb ≤ 2047) := by
  have hm : memout_mb ≠ 0 := by omega
  refine ⟨?_, ?_, ?_⟩
  · by_cases hs : os.setrlimit_result = -1 <;>
      simp [Process.launch, Process.set_memout, hchild, hm, hs]
  · intro cur max hmem
    by_cases hs : os.setrlimit_result = -1
    · simp [Process.launch, Process.set_memout, hchild, hm, hs] at hmem
      exact hmem
    · simp [Process.launch, Process.set_memout, hchild, hm, hs] at hmem
      rcases hmem with h | h
      · exact h
      · obtain ⟨fd, hfd⟩ := close_pipe_calls _ _ _ h
        cases hfd
  · unfold rlimitBytes toRlim wrapInt32
    omega

/-- Witness of `launch_rlimit`: the limits 2048 MB and 4096 MB in the forked child. For 2048
the installed limit is 18446744071562067968 bytes, not 2147483648; for 4096 it is 0. -/
theorem launch_rlimit_witness :
    SysCall.setrlimit_AS 18446744071562067968 18446744071562067968
        ∈ ((neverStarted.set_memout 2048).launch [] [] ⟨0, 0, false⟩).calls
      ∧ ¬ (rlimitBytes 2048 = (2048 * 1048576 : Int).toNat)
      ∧ SysCall.setrlimit_AS 0 0
        ∈ ((neverStarted.set_memout 4096).launch [] [] ⟨0, 0, false⟩).calls
      ∧ ¬ (rlimitBytes 4096 = (4096 * 1048576 : Int).toNat) :=
  have h2048 := launch_rlimit neverStarted 2048 [] [] ⟨0, 0, false⟩ (by decide) (by decide) rfl
  have h4096 := launch_rlimit neverStarted 4096 [] [] ⟨0, 0, false⟩ (by decide) (by decide) rfl
  ⟨h2048.1, fun e => absurd (h2048.2.2.mp e) (by decide),
    h4096.1, fun e => absurd (h4096.2.2.mp e) (by decide)⟩

/-- The method `close_pipe` does not touch `_exit_code`. -/
theorem close_pipe_exit_code (p : Process) (flag : Bool) :
    (p.close_pipe flag).self._exit_code = p._exit_code := by
  simp [Process.close_pipe]

/-- The method `start` does not touch `_exit_code`. -/
theorem start_exit_code (p : Process) (a b c : Option Pipe) (os : LaunchOS) :
    (p.start a b c os).self._exit_code = p._exit_code := by
  have hl : ∀ q : Process, (q.launch q._path q._args.args os).self._exit_code = q._exit_code := by
    intro q
    rcases lt_trichotomy os.fork_result 0 with h | h | h
    · have h0 : os.fork_result ≠ 0 := by omega
      simp [Process.launch, h, h0]
    · by_cases hm : q._memsize ≠ 0 ∧ os.setrlimit_result = -1 <;>
        simp [Process.launch, h, hm, close_pipe_exit_code]
    · have h0 : os.fork_result ≠ 0 := by omega
      have h1 : ¬ os.fork_result < 0 := by omega
      simp [Process.launch, h0, h1, close_pipe_exit_code]
  cases a with
  | none => simp [Process.start, Process.init_pipe]
  | some x =>
    cases b with
    | none => simp [Process.start, Process.init_pipe]
    | some y =>
      cases c with
      | none => simp [Process.start, Process.init_pipe]
      | some z =>
        simp only [Process.start, Process.init_pipe]
        exact hl _

/-- The method `is_running` does not touch `_exit_code`. -/
theorem is_running_exit_code (p : Process) (result errno : Int) :
    (p.is_running result errno).self._exit_code = p._exit_code := by
  unfold Process.is_running
  split_ifs <;> rfl

/-- The method `wait` issues a `waitpid`. -/
theorem wait_calls (p : Process) (status : Int) :
    (p.wait status).calls = [SysCall.waitpid p._pid] := by
  unfold Process.wait
  simp only
  split_ifs <;> rfl

/-- A `kill` that issues no `waitpid` does not touch `_exit_code`. -/
theorem kill_exit_code (p : Process) (signal result status : Int)
    (h : ∀ call ∈ (p.kill signal result status).calls, call.isWaitpid = false) :
    (p.kill signal result status).self._exit_code = p._exit_code := by
  unfold Process.kill at h ⊢
  split_ifs at h ⊢ with h1 h2 h3
  · rfl
  · have := h (SysCall.waitpid p._pid) (by simp [wait_calls])
    simp [SysCall.isWaitpid] at this
  · rfl
  · rfl

/-- A timeout callback that issues no `waitpid` does not touch `_exit_code`. -/
theorem timeout_callback_exit_code (p : Process) (pr pe kr status : Int)
    (h : ∀ call ∈ (p.timeout_callback pr pe kr status).calls, call.isWaitpid = false) :
    (p.timeout_callback pr pe kr status).self._exit_code = p._exit_code := by
  unfold Process.timeout_callback at h ⊢
  simp only at h ⊢
  split_ifs at h ⊢ with h1
  · have hk := kill_exit_code (p.is_running pr pe).self SIGKILL kr status
      (fun call hc => h call (List.mem_append_right _ hc))
    show ((p.is_running pr pe).self.kill SIGKILL kr status).self._exit_code = p._exit_code
    rw [hk, is_running_exit_code]
  · exact is_running_exit_code p pr pe

/-- A call that issues no `waitpid` does not touch `_exit_code`. -/
theorem step_exit_code (p : Process) (s : Step)
    (h : ∀ call ∈ (p.step s).2, call.isWaitpid = false) :
    (p.step s).1._exit_code = p._exit_code := by
  cases s with
  | start a b c os => exact start_exit_code p a b c os
  | wait status =>
    have := h (SysCall.waitpid p._pid) (by simp [Process.step, wait_calls])
    simp [SysCall.isWaitpid] at this
  | kill signal result status => exact kill_exit_code p signal result status h
  | is_running result errno => exact is_running_exit_code p result errno
  | timeout_callback pr pe kr status => exact timeout_callback_exit_code p pr pe kr status h

/-- A sequence of calls that issues no `waitpid` does not touch `_exit_code`. -/
theorem run_exit_code (steps : List Step) : ∀ p : Process,
    (∀ call ∈ (p.run steps).2, call.isWaitpid = false) →
      (p.run steps).1._exit_code = p._exit_code := by
  induction steps with
  | nil => intro p _; rfl
  | cons s rest ih =>
    intro p h
    have h1 : ∀ call ∈ (p.step s).2, call.isWaitpid = false :=
      fun call hc => h call (by simp only [Process.run]; exact List.mem_append_left _ hc)
    have h2 : ∀ call ∈ ((p.step s).1.run rest).2, call.isWaitpid = false :=
      fun call hc => h call (by simp only [Process.run]; exact List.mem_append_right _ hc)
    show ((p.step s).1.run rest).1._exit_code = p._exit_code
    rw [ih (p.step s).1 h2, step_exit_code p s h1]

/-- Every branch of `wait` stores the status word in `_exit_code`. -/
theorem wait_exit_code (p : Process) (status : Int) :
    (p.wait status).self._exit_code = status := by
  unfold Process.wait
  simp only
  split_ifs <;> rfl

/-- Where the stored exit status is well defined: `get_exit_code` is `-1` on a freshly
constructed process and stays `-1` through every sequence of calls that issues no `waitpid`;
`wait()` stores the content of its local `status` on every branch; and the word `c * 256` of a
normal exit with code `c` is stored undecoded, while `WEXITSTATUS` of it is `c`. -/
theorem exit_code_paths (p : Process) (a b c : Pipe) (steps : List Step) (status code : Int) :
    (Process.new a b c).get_exit_code = -1
      ∧ ((∀ call ∈ ((Process.new a b c).run steps).2, call.isWaitpid = false) →
          ((Process.new a b c).run steps).1.get_exit_code = -1)
      ∧ (p.wait status).self.get_exit_code = status
      ∧ (0 ≤ code → code ≤ 255 →
          WIFEXITED (code * 256) = true ∧ WEXITSTATUS (code * 256) = code
            ∧ (p.wait (code * 256)).self.get_exit_code = code * 256) := by
  refine ⟨rfl, ?_, wait_exit_code p status, ?_⟩
  · intro h
    show ((Process.new a b c).run steps).1._exit_code = -1
    rw [run_exit_code steps (Process.new a b c) h]
    rfl
  · intro h0 h255
    refine ⟨?_, ?_, wait_exit_code p (code * 256)⟩
    · simp only [WIFEXITED, WTERMSIG, beq_iff_eq]
      omega
    · simp only [WEXITSTATUS]
      omega

/-- An instance of `exit_code_paths`: a fresh process that is started and probed keeps `-1`; a
`wait` that receives the status word 768 makes `get_exit_code` 768, while the exit code that
word encodes is 3. -/
theorem exit_code_paths_witness :
    (neverStarted.run [Step.start (some ⟨3, 4⟩) (some ⟨5, 6⟩) (some ⟨7, 8⟩) ⟨100, 0, false⟩,
        Step.is_running 0 0]).1.get_exit_code = -1
      ∧ WEXITSTATUS 768 = 3
      ∧ (runningChild.wait 768).self.get_exit_code = 768 :=
  have h := exit_code_paths runningChild ⟨-1, -1⟩ ⟨-1, -1⟩ ⟨-1, -1⟩
    [Step.start (some ⟨3, 4⟩) (some ⟨5, 6⟩) (some ⟨7, 8⟩) ⟨100, 0, false⟩, Step.is_running 0 0]
    768 3
  ⟨h.2.1 (by decide), (h.2.2.2 (by decide) (by decide)).2.1, h.2.2.1⟩

/-- C16 (the code at the failing inputs): `wait()` never looks at what `waitpid` returns, so
when `waitpid` reaps nothing the uninitialised local `status` is stored in `_exit_code`. On a
process that was never started (`waitpid(-1,…)` with no child), `get_exit_code` is `-1` before
`wait()` and the indeterminate value (here 32766) after it, although no child has been reaped.
After the timeout callback has reaped the killed child with status word 9, a further `wait()`
that reaps nothing replaces the delivered word 9 by the indeterminate value. -/
theorem wait_stores_uninitialised_status (p : Process) (uninitialised : Int) :
    (p.wait (statusAfterWaitpid uninitialised none)).self.get_exit_code = uninitialised
      ∧ (neverStarted.get_exit_code = -1
        ∧ (neverStarted.wait (statusAfterWaitpid 32766 none)).calls = [SysCall.waitpid (-1)]
        ∧ (neverStarted.wait (statusAfterWaitpid 32766 none)).self.get_exit_code = 32766)
      ∧ ((runningChild.timeout_callback 0 0 0 (statusAfterWaitpid 0 (some 9))).self.get_exit_code
            = 9
        ∧ (runningChild.timeout_callback 0 0 0 (statusAfterWaitpid 0 (some 9))).self._pid = -1
        ∧ ((runningChild.timeout_callback 0 0 0 (statusAfterWaitpid 0 (some 9))).self.wait
              (statusAfterWaitpid 32766 none)).self.get_exit_code = 32766) := by
  refine ⟨?_, ?_, ?_⟩
  · show (p.wait uninitialised).self._exit_code = uninitialised
    exact wait_exit_code p uninitialised
  · decide
  · decide
